import Mathlib

/-!
Verification development for the pdf-reader-mcp repository.

The definitions below are a shallow embedding of the page-content
extraction and ordering pipeline:
  - `encodePixelsToPNG` from `src/dist/pdf/extractor.js` (lines 7-39),
  - `extractPageContent` from `src/dist/pdf/extractor.js` (lines 239-389),
  - the per-image callback/timeout race from the same file (lines 353-369),
  - the page range parser from `src/pdf/parser.ts` (`parseRangePart`,
    `parsePageRanges`, `getTargetPages`, `determinePagesToProcess`),
  - `buildWarnings` and `extractPageTexts` from `src/pdf/extractor.ts`,
  - `processSingleSource` and the content assembly of `handleReadPdfFunc`
    from `src/handlers/readPdf.ts`.

Modelling conventions:
  - JavaScript numbers that can carry fractional page coordinates are
    modelled as fixed-point thousandths (`Scaled := Int`, value = v/1000);
    `Math.round` on that grid is `jsRound`.  Pure integer quantities
    (page numbers, sizes, channel kinds) are `Int`/`Nat` directly.
  - Promise-based code never rejects in the modelled fragments; each
    awaited step that can throw is modelled as `Except String`.
  - `console.warn` diagnostics that the claims care about are returned as
    values (an `Option String` advisory); others are dropped.
  - JavaScript `Array.prototype.sort` with a numeric comparator is a
    stable sort; it is modelled by the stable insertion sort `stableSort`
    (the stable-sorted permutation for a total preorder is unique, so any
    stable sort is a faithful model).
-/

/-- Decidable equality for `Except`, needed to evaluate parser results. -/
instance {ε α : Type} [DecidableEq ε] [DecidableEq α] : DecidableEq (Except ε α) :=
  fun x y =>
    match x, y with
    | .ok a, .ok b =>
      if h : a = b then isTrue (by rw [h]) else isFalse (by simp [h])
    | .error a, .error b =>
      if h : a = b then isTrue (by rw [h]) else isFalse (by simp [h])
    | .ok _, .error _ => isFalse (by simp)
    | .error _, .ok _ => isFalse (by simp)

/-- Stable insertion step: place `a` before the first element `b` such
that `r a b` holds (`r a b` = "a may come before b"). -/
def insertStable (r : α → α → Bool) (a : α) : List α → List α
  | [] => [a]
  | b :: bs => if r a b then a :: b :: bs else b :: insertStable r a bs

/-- Stable sort by the relation `r` (`r a b` = "a may come before b").
Models JavaScript `Array.prototype.sort` with a comparator `cmp` via
`r a b := cmp a b ≤ 0`: same order relation, same stability. -/
def stableSort (r : α → α → Bool) : List α → List α
  | [] => []
  | x :: xs => insertStable r x (stableSort r xs)

/-- Deduplication keeping the first occurrence, in encounter order.
Models the iteration order of a JavaScript `Set`. -/
def dedupKeepFirst [BEq α] : List α → List α
  | [] => []
  | x :: xs =>
    let rest := dedupKeepFirst xs
    x :: rest.filter (fun y => !(y == x))

/-- Insertion into a JavaScript `Set` modelled as an encounter-ordered
duplicate-free list. -/
def addUnique [BEq α] (acc : List α) (x : α) : List α :=
  if acc.contains x then acc else acc ++ [x]

/-! JavaScript string primitives, modelled over `List Char`. -/

/-- Whitespace as accepted by the JS `trim`/`parseInt` for the inputs the
page-range grammar admits. -/
def isJsWS (c : Char) : Bool :=
  c = ' ' || c = '\t' || c = '\n' || c = '\r'

/-- Models `String.prototype.trim`. -/
def trimL (l : List Char) : List Char :=
  ((l.dropWhile isJsWS).reverse.dropWhile isJsWS).reverse

/-- Models `String.prototype.split(sep)` (always returns at least one
piece; empty pieces are kept). -/
def jsSplit (sep : Char) : List Char → List (List Char)
  | [] => [[]]
  | c :: rest =>
    let r := jsSplit sep rest
    if c = sep then [] :: r
    else
      match r with
      | [] => [[c]]
      | h :: t => (c :: h) :: t

/-- Value of a leading run of decimal digits; `none` when there is none
(the `NaN` case of `parseInt`). -/
def digitsVal (l : List Char) : Option Nat :=
  let ds := l.takeWhile (fun c => c.isDigit)
  if ds.isEmpty then none
  else some (ds.foldl (fun a c => a * 10 + (c.toNat - 48)) 0)

/-- Models `parseInt(s, 10)`: skip leading whitespace, optional sign,
then the longest prefix of decimal digits; `none` models `NaN`. -/
def jsParseInt (l : List Char) : Option Int :=
  match l.dropWhile isJsWS with
  | '-' :: rest => (digitsVal rest).map (fun n => -(n : Int))
  | '+' :: rest => (digitsVal rest).map (fun n => (n : Int))
  | l1 => (digitsVal l1).map (fun n => (n : Int))

/-- Fixed-point coordinate: the JavaScript number x is modelled as the
integer of thousandths `x * 1000`. -/
abbrev Scaled := Int

/-- Models `Math.round(x)` (= floor of x + 1/2) on the thousandths grid. -/
def jsRound (v : Scaled) : Int := (v + 500).fdiv 1000

/-! Pixel decoder: `encodePixelsToPNG` (src/dist/pdf/extractor.js lines
7-39).  `new PNG({width, height})` allocates a zero-filled RGBA buffer of
4*width*height bytes; `png.data[i] = v` stores v mod 256 (Buffer byte
semantics). -/

/-- Byte truncation performed by a Buffer element store. -/
def toByte (v : Nat) : Nat := v % 256

/-- The four consecutive stores of one loop iteration:
`png.data[4i..4i+3] := r, g, b, 255`. -/
def setPixel (buf : List Nat) (i r g b : Nat) : List Nat :=
  ((((buf.set (4 * i) (r % 256)).set (4 * i + 1) (g % 256)).set
      (4 * i + 2) (b % 256)).set (4 * i + 3) 255)

/-- First `n` iterations of the per-pixel write loop over the zero-filled
4*w*h RGBA buffer; `f i` is the (r,g,b) triple written for pixel `i`. -/
def pixelLoopAux (f : Nat → Nat × Nat × Nat) (w h n : Nat) : List Nat :=
  (List.range n).foldl
    (fun buf i => setPixel buf i (f i).1 (f i).2.1 (f i).2.2)
    (List.replicate (4 * (w * h)) 0)

/-- The complete per-pixel write loop (`for (let i = 0; i < width * height; i++)`). -/
def pixelLoop (f : Nat → Nat × Nat × Nat) (w h : Nat) : List Nat :=
  pixelLoopAux f w h (w * h)

/-- The `png.data` RGBA plane built by `encodePixelsToPNG` for a given
channel count:
  - channels = 4: `png.data = Buffer.from(pixelData)` (byte copy);
  - channels = 3: per pixel, samples 3i, 3i+1, 3i+2 become R,G,B and
    alpha is 255 (`pixelData[srcIdx] ?? 0` reads default to 0);
  - channels = 1: the single sample `pixelData[i] ?? 0` is replicated
    into R,G,B with alpha 255;
  - any other channel count leaves the zero-filled buffer untouched. -/
def pngDataOfChannels (pixelData : List Nat) (w h channels : Nat) : List Nat :=
  if channels = 4 then pixelData.map toByte
  else if channels = 3 then
    pixelLoop (fun i =>
      (pixelData.getD (i * 3) 0, pixelData.getD (i * 3 + 1) 0,
        pixelData.getD (i * 3 + 2) 0)) w h
  else if channels = 1 then
    pixelLoop (fun i =>
      (pixelData.getD i 0, pixelData.getD i 0, pixelData.getD i 0)) w h
  else List.replicate (4 * (w * h)) 0

/-- Modelled from the spec: the external lossless PNG encoder
(`PNG.sync.write` of pngjs, outside this repository), described in the
spec only as a deterministic encoder accepting an RGBA buffer plus
dimensions and returning an encoded byte buffer; abstracted here as a
dimension-prefixed container of the RGBA raster. -/
def pngEncode (w h : Nat) (rgba : List Nat) : List Nat :=
  w :: h :: rgba

/-- Modelled from the spec: `Buffer.prototype.toString(\x27base64\x27)`
(external JS builtin), the standard base64 alphabet with padding. -/
def base64Alphabet : List Char :=
  "ABCDEFGHIJKLMNOPQRSTUVWXYZabcdefghijklmnopqrstuvwxyz0123456789+/".toList

/-- One base64 output character. -/
def b64Char (n : Nat) : Char := base64Alphabet.getD n '?'

/-- Base64 encoding of a byte list, 3 bytes to 4 characters with padding. -/
def base64Chunk : List Nat → List Char
  | [] => []
  | [a] => [b64Char (a / 4), b64Char (a % 4 * 16), '=', '=']
  | [a, b] => [b64Char (a / 4), b64Char (a % 4 * 16 + b / 16),
      b64Char (b % 16 * 4), '=']
  | a :: b :: c :: rest =>
    b64Char (a / 4) :: b64Char (a % 4 * 16 + b / 16) ::
      b64Char (b % 16 * 4 + c / 64) :: b64Char (c % 64) :: base64Chunk rest

/-- Base64 of a byte buffer. -/
def base64Encode (bytes : List Nat) : String :=
  String.mk (base64Chunk (bytes.map toByte))

/-- Models `encodePixelsToPNG(pixelData, width, height, channels)`
(src/dist/pdf/extractor.js lines 7-39): build the RGBA plane, encode it
as PNG, return the base64 text. -/
def encodePixelsToPNG (pixelData : List Nat) (width height channels : Nat) : String :=
  base64Encode (pngEncode width height (pngDataOfChannels pixelData width height channels))

/-! Raw image records delivered by the object tables (pdfjs values seen
by `processImageData`). -/

/-- A truthy object delivered as image data.  `data = none` models a
missing/undefined `data` property (the `!img.data` check); `width = 0` or
`height = 0` model falsy width/height. -/
structure RawImage where
  data : Option (List Nat)
  width : Nat
  height : Nat
  kind : Option Nat
deriving DecidableEq, Repr

/-! The per-image callback/timeout race
(src/dist/pdf/extractor.js lines 353-369): a `resolved` flag guards both
the 10-second timer handler and the `page.objs.get` callback, so only the
first of the two events resolves the pending promise. -/

/-- Timeout constant: `setTimeout(..., 10000)`. -/
def TIMEOUT_MS : Nat := 10000

/-- An event that can hit the pending per-image promise: the safety-net
timer firing, or the object-table callback delivering a value (`none`
models a falsy/non-object delivery). -/
inductive RaceEvent where
  | timer
  | callback (v : Option RawImage)
deriving DecidableEq, Repr

/-- How the pending promise is resolved. -/
inductive RaceOutcome where
  | timedOut
  | delivered (v : Option RawImage)
deriving DecidableEq, Repr

/-- The resolution produced by one event when the guard is still open. -/
def RaceEvent.outcome : RaceEvent → RaceOutcome
  | .timer => .timedOut
  | .callback v => .delivered v

/-- One event hitting the guard: `if (!resolved) { resolved = true; ... }`.
The state is the resolution so far (`none` = `resolved` is false). -/
def raceStep (s : Option RaceOutcome) (e : RaceEvent) : Option RaceOutcome :=
  match s with
  | some _ => s
  | none => some e.outcome

/-- The pending promise after a sequence of events. -/
def runRace (events : List RaceEvent) : Option RaceOutcome :=
  events.foldl raceStep none

/-- Timestamped variant: the same guard, also recording at what time the
single resolution happened. -/
def timedRaceStep (s : Option (Nat × RaceOutcome)) (e : Nat × RaceEvent) :
    Option (Nat × RaceOutcome) :=
  match s with
  | some _ => s
  | none => some (e.1, e.2.outcome)

/-- The pending promise after a sequence of timestamped events. -/
def runTimedRace (events : List (Nat × RaceEvent)) : Option (Nat × RaceOutcome) :=
  events.foldl timedRaceStep none

/-! Page content extractor (`extractPageContent`,
src/dist/pdf/extractor.js lines 239-389). -/

/-- One entry of `textContent.items`: a text run with its position
transform (`transform[5]` is the baseline Y coordinate). -/
structure PdfTextItem where
  str : String
  transform : List Scaled
deriving DecidableEq, Repr

/-- One encoded embedded image of the output. -/
structure ExtractedImage where
  page : Int
  index : Nat
  width : Nat
  height : Nat
  format : String
  data : String
deriving DecidableEq, Repr

/-- One unit of extracted page content, tagged with its Y position. -/
inductive ContentItem where
  | text (yPosition : Int) (textContent : String)
  | image (yPosition : Int) (imageData : ExtractedImage)
deriving DecidableEq, Repr

/-- The Y position of a content item. -/
def ContentItem.yPos : ContentItem → Int
  | .text y _ => y
  | .image y _ => y

/-- The argument record `operatorList.argsArray[i]` of an image paint
operator: `argsArray[0]` is the object-name reference; `placement` is
`argsArray[1]` when `argsArray.length > 1` and that entry is an `Array`
(the placement transform), `none` otherwise. -/
structure ImgArgs where
  name : String
  placement : Option (List Scaled)
deriving DecidableEq, Repr

/-- Result of the synchronous `page.objs.get(name)` call: it can throw,
return `undefined` (`undef`), or return a defined value (`val`; the value
`val none` is a defined but falsy/non-object value such as `null`). -/
inductive ObjsSyncResult where
  | throws (msg : String)
  | undef
  | val (v : Option RawImage)
deriving DecidableEq, Repr

/-- A parsed page as seen by `extractPageContent`: the results of the
awaited accessors (each may reject, modelled by `Except`) and the sync
and async behavior of the object tables per object name.
`operatorList` pairs each operator with the flag
`fn === OPS.paintImageXObject || fn === OPS.paintXObject` and its args
(`none` models `!argsArray || argsArray.length === 0`).
`commonGet` models `page.commonObjs.get(name)` (can throw; `ok none` is
a falsy return).  `asyncEvents` are the race events (callback/timer)
that hit the pending promise of the fallback asynchronous
`page.objs.get(name, cb)`; a trace with no event at all models a
callback that never fires together with a timer that never fires, which
cannot happen on the platform (the 10-second `setTimeout` is
unconditional); it is totalized to an absent image. -/
structure PageEnv where
  textContent : Except String (List PdfTextItem)
  operatorList : Except String (List (Bool × Option ImgArgs))
  commonGet : String → Except String (Option RawImage)
  syncGet : String → ObjsSyncResult
  asyncEvents : String → List RaceEvent

/-- Models the `processImageData` helper (lines 299-324): reject falsy or
non-object values, values without truthy `data`/`width`/`height`; derive
the channel count and format tag from `kind` (1 = grayscale, 3 = RGBA,
anything else = RGB) and encode the pixels. -/
def processImageData (v : Option RawImage) (pageNum : Int) (arrayIndex : Nat)
    (yPosition : Int) : Option ContentItem :=
  match v with
  | none => none
  | some img =>
    match img.data with
    | none => none
    | some d =>
      if img.width = 0 || img.height = 0 then none
      else
        let channels : Nat :=
          match img.kind with
          | some 1 => 1
          | some 3 => 4
          | _ => 3
        let format : String :=
          match img.kind with
          | some 1 => "grayscale"
          | some 3 => "rgba"
          | _ => "rgb"
        some (.image yPosition
          { page := pageNum, index := arrayIndex, width := img.width,
            height := img.height, format := format,
            data := encodePixelsToPNG d img.width img.height channels })

/-- The Y position taken from the image paint operator arguments (lines
289-297): `argsArray[1][5]` rounded when present, else 0. -/
def imageYPosition (args : ImgArgs) : Int :=
  match args.placement with
  | some t =>
    match t[5]? with
    | some v => jsRound v
    | none => 0
  | none => 0

/-- Models `imageName.startsWith(\x27g_\x27)`: the shared/common object
naming convention. -/
def isSharedObjName (s : String) : Bool :=
  List.isPrefixOf ['g', '_'] s.toList

/-- The resolution value of the per-image promise (lines 282-370): the
three-tier lookup.  Tier a: `commonObjs.get` for `g_`-named references
(a throw or a falsy value falls through).  Tier b: synchronous
`objs.get`; a defined value resolves immediately, a throw or `undefined`
falls through.  Tier c: callback-based `objs.get` raced against the
10-second timer. -/
def resolveImageItem (pg : PageEnv) (pageNum : Int) (arrayIndex : Nat)
    (argsOpt : Option ImgArgs) : Option ContentItem :=
  match argsOpt with
  | none => none
  | some args =>
    let y := imageYPosition args
    let tierBC : Option ContentItem :=
      match pg.syncGet args.name with
      | .val v => processImageData v pageNum arrayIndex y
      | .undef =>
        match runRace (pg.asyncEvents args.name) with
        | some (.delivered v) => processImageData v pageNum arrayIndex y
        | some .timedOut => none
        | none => none
      | .throws _ =>
        match runRace (pg.asyncEvents args.name) with
        | some (.delivered v) => processImageData v pageNum arrayIndex y
        | some .timedOut => none
        | none => none
    if isSharedObjName args.name then
      match pg.commonGet args.name with
      | .ok (some v) => processImageData (some v) pageNum arrayIndex y
      | .ok none => tierBC
      | .error _ => tierBC
    else tierBC

/-- Insertion into the `textByY` map: JavaScript `Map` keys keep first
insertion order; pushing onto an existing key appends to its list. -/
def insertByY : List (Int × List String) → Int → String → List (Int × List String)
  | [], y, s => [(y, [s])]
  | (k, parts) :: rest, y, s =>
    if k = y then (k, parts ++ [s]) :: rest
    else (k, parts) :: insertByY rest y s

/-- One iteration of the grouping loop (lines 247-258): items without a
`transform[5]` entry are skipped; others are grouped under their rounded
Y coordinate. -/
def groupStep (m : List (Int × List String)) (it : PdfTextItem) :
    List (Int × List String) :=
  match it.transform[5]? with
  | none => m
  | some v => insertByY m (jsRound v) it.str

/-- The `textByY` map after the grouping loop (lines 246-258). -/
def groupTextByY (items : List PdfTextItem) : List (Int × List String) :=
  items.foldl groupStep []

/-- Lookup in the insertion-ordered map. -/
def lookupY : List (Int × List String) → Int → Option (List String)
  | [], _ => none
  | (k, parts) :: rest, y => if k = y then some parts else lookupY rest y

/-- The strings of all items whose rounded Y coordinate is `y`, in
encounter order. -/
def strsAtY (items : List PdfTextItem) (y : Int) : List String :=
  items.filterMap fun it =>
    match it.transform[5]? with
    | some v => if jsRound v = y then some it.str else none
    | none => none

/-- The text content items built from the grouped map (lines 260-269):
per key, the joined string, kept only when it is nonempty after trimming
(there is some non-whitespace character). -/
def textContentItems (items : List PdfTextItem) : List ContentItem :=
  (groupTextByY items).filterMap fun p =>
    let s := String.join p.2
    if s.toList.any (fun c => !(isJsWS c)) then some (.text p.1 s) else none

/-- The sort relation of line 388: comparator `(a, b) => b.yPosition -
a.yPosition`, that is "a may stay before b iff b.yPosition ≤ a.yPosition". -/
def byYDesc (a b : ContentItem) : Bool :=
  decide (b.yPos ≤ a.yPos)

/-- The final stable sort of the content items (line 388). -/
def sortContent (items : List ContentItem) : List ContentItem :=
  stableSort byYDesc items

/-- Models `extractPageContent(pdfDocument, pageNum, includeImages,
sourceDescription)` (lines 239-389).  The first argument is the result
of `await pdfDocument.getPage(pageNum)`.  Any rejecting awaited step is
caught and degraded to the single synthetic text item (lines 375-386);
otherwise text items and resolved images are concatenated and stably
sorted by Y descending. -/
def extractPageContent (page : Except String PageEnv) (pageNum : Int)
    (includeImages : Bool) : List ContentItem :=
  match page with
  | .error m => [.text 0 ("Error processing page: " ++ m)]
  | .ok pg =>
    match pg.textContent with
    | .error m => [.text 0 ("Error processing page: " ++ m)]
    | .ok items =>
      let contentItems := textContentItems items
      if includeImages then
        match pg.operatorList with
        | .error m => [.text 0 ("Error processing page: " ++ m)]
        | .ok ops =>
          let imgArgs := (ops.filter (fun e => e.1)).map (fun e => e.2)
          let resolved := imgArgs.enum.filterMap
            (fun p => resolveImageItem pg pageNum p.1 p.2)
          sortContent (contentItems ++ resolved)
      else sortContent contentItems

/-! Page range parser (src/pdf/parser.ts). -/

/-- The safety bound for open-ended ranges (`MAX_RANGE_SIZE`). -/
def MAX_RANGE_SIZE : Int := 10000

/-- The inclusive integer range `a .. b` added by the
`for (let i = start; i <= practicalEnd; i++)` loop. -/
def intRangeIncl (a b : Int) : List Int :=
  (List.range (b + 1 - a).toNat).map (fun n => a + Int.ofNat n)

/-- Ascending numeric order (`(a, b) => a - b` comparator). -/
def intAsc (a b : Int) : Bool := decide (a ≤ b)

/-- A value thrown during source processing: an `McpError`, a plain
`Error` (its `.message`), or any other thrown value (carried as its
`JSON.stringify` rendering). -/
inductive Thrown where
  | mcp (msg : String)
  | err (msg : String)
  | other (json : String)
deriving DecidableEq, Repr

/-- Models `parseRangePart(part, pages)` (src/pdf/parser.ts lines 10-43).
Returns the page numbers the part adds to the set together with the
truncation advisory (`console.warn`) when an open-ended range was
clamped; throws (`Except.error`) on invalid parts.  The split on a part
containing a hyphen takes the first two pieces
(`const [startStr, endStr] = trimmedPart.split(\x27-\x27)`), `endStr`
empty or missing means `Infinity`; validation rejects `NaN` values,
`start <= 0` and `start > end`; `practicalEnd` clamps the loop to
`start + MAX_RANGE_SIZE`. -/
def parseRangePart (part : List Char) : Except String (List Int × Option String) :=
  let t := trimL part
  if t.contains '-' then
    match jsSplit '-' t with
    | [] => .error ("Invalid page range format: " ++ String.mk t)
    | startStr :: rest =>
      let endStrOpt := rest.head?
      let endIsInf : Bool :=
        match endStrOpt with
        | none => true
        | some e => e.isEmpty
      let endVal : Option (Option Int) :=
        if endIsInf then some none
        else
          match jsParseInt (endStrOpt.getD []) with
          | some e => some (some e)
          | none => none
      match jsParseInt startStr, endVal with
      | some start, some endv =>
        if start ≤ 0 || (match endv with | some e => decide (e < start) | none => false) then
          .error ("Invalid page range values: " ++ String.mk t)
        else
          let practicalEnd : Int :=
            match endv with
            | some e => min e (start + MAX_RANGE_SIZE)
            | none => start + MAX_RANGE_SIZE
          let pages := intRangeIncl start practicalEnd
          let warn : Option String :=
            if endv = none ∧ practicalEnd = start + MAX_RANGE_SIZE then
              some ("[PDF Reader MCP] Open-ended range starting at " ++
                toString start ++ " was truncated at page " ++
                toString practicalEnd ++ ".")
            else none
          .ok (pages, warn)
      | _, _ => .error ("Invalid page range values: " ++ String.mk t)
  else
    match jsParseInt t with
    | some p =>
      if p ≤ 0 then .error ("Invalid page number: " ++ String.mk t)
      else .ok ([p], none)
    | none => .error ("Invalid page number: " ++ String.mk t)

/-- The sequential loop of `parsePageRanges` delegating each
comma-separated part to `parseRangePart`, accumulating the `Set`. -/
def collectRangeParts : List (List Char) → List Int → Except String (List Int)
  | [], acc => .ok acc
  | p :: rest, acc =>
    match parseRangePart p with
    | .error m => .error m
    | .ok (pages, _) => collectRangeParts rest (pages.foldl addUnique acc)

/-- Models `parsePageRanges(ranges)` (src/pdf/parser.ts lines 50-63):
split on commas, parse each part into the set, reject an empty result,
return the sorted array. -/
def parsePageRanges (ranges : String) : Except String (List Int) :=
  match collectRangeParts (jsSplit ',' ranges.toList) [] with
  | .error m => .error m
  | .ok pages =>
    if pages.isEmpty then
      .error "Page range string resulted in zero valid pages."
    else .ok (stableSort intAsc pages)

/-- A page specification: a range string or an array of page numbers. -/
inductive PagesSpec where
  | str (s : String)
  | arr (l : List Int)
deriving DecidableEq, Repr

/-- Models `getTargetPages(sourcePages, sourceDescription)`
(src/pdf/parser.ts lines 71-102): missing (or falsy, e.g. the empty
string) specification means no target pages; a string is parsed as
ranges; an array is validated (positive integers), deduplicated and
sorted; any parse error is rethrown as an `McpError` naming the source. -/
def getTargetPages (sourcePages : Option PagesSpec) (sourceDescription : String) :
    Except Thrown (Option (List Int)) :=
  match sourcePages with
  | none => .ok none
  | some (.str s) =>
    if s = "" then .ok none
    else
      match parsePageRanges s with
      | .ok t => .ok (some t)
      | .error m =>
        .error (.mcp ("Invalid page specification for source " ++
          sourceDescription ++ ": " ++ m))
  | some (.arr l) =>
    if l.any (fun p => decide (p ≤ 0)) then
      .error (.mcp ("Invalid page specification for source " ++
        sourceDescription ++ ": " ++
        "Page numbers in array must be positive integers."))
    else
      let uniquePages := stableSort intAsc (dedupKeepFirst l)
      if uniquePages.isEmpty then
        .error (.mcp ("Invalid page specification for source " ++
          sourceDescription ++ ": " ++
          "Page specification resulted in an empty set of pages."))
      else .ok (some uniquePages)

/-- Models `determinePagesToProcess(targetPages, totalPages,
includeFullText)` (src/pdf/parser.ts lines 107-124). -/
def determinePagesToProcess (targetPages : Option (List Int)) (totalPages : Int)
    (includeFullText : Bool) : List Int × List Int :=
  match targetPages with
  | some tp =>
    (tp.filter (fun p => decide (p ≤ totalPages)),
      tp.filter (fun p => decide (totalPages < p)))
  | none =>
    if includeFullText then
      ((List.range totalPages.toNat).map (fun n => Int.ofNat n + 1), [])
    else ([], [])

/-- Models `buildWarnings(invalidPages, totalPages)`
(src/pdf/extractor.ts lines 99-107). -/
def buildWarnings (invalidPages : List Int) (totalPages : Int) : List String :=
  if invalidPages.isEmpty then []
  else
    ["Requested page numbers " ++
      String.intercalate ", " (invalidPages.map toString) ++
      " exceed total pages (" ++ toString totalPages ++ ")."]

/-! Batch orchestrator (src/handlers/readPdf.ts). -/

/-- One requested source (`PdfSource`). -/
structure PdfSource where
  path : Option String := none
  url : Option String := none
  pages : Option PagesSpec := none
deriving DecidableEq, Repr

/-- One per-page text extraction result (`ExtractedPageText`). -/
structure ExtractedPageText where
  page : Int
  text : String
deriving DecidableEq, Repr

/-- Image metadata without the payload, as placed into the JSON summary
(`image_info`). -/
structure ImageInfo where
  page : Int
  index : Nat
  width : Nat
  height : Nat
  format : String
deriving DecidableEq, Repr

/-- The per-source output object (`PdfResultData`), fields in the order
they are assigned. -/
structure PdfResultData where
  num_pages : Option Int := none
  info : Option String := none
  metadata : Option String := none
  warnings : Option (List String) := none
  page_texts : Option (List ExtractedPageText) := none
  full_text : Option String := none
  images : Option (List ExtractedImage) := none
  image_info : Option (List ImageInfo) := none
deriving DecidableEq, Repr

/-- The finalized per-source result (`PdfSourceResult`). -/
structure PdfSourceResult where
  source : String
  success : Bool
  data : Option PdfResultData := none
  error : Option String := none
deriving DecidableEq, Repr

/-- The environment one source meets: the document load outcome (the
page count on success, the thrown value otherwise), the `getMetadata`
outcome (info and metadata payloads; a rejection is caught internally
and merely omits metadata), the per-page text outcome (a rejection is
caught per page and degraded to an error text), and the images
delivered by `extractImages` (which never rejects). -/
structure SourceEnv where
  loadResult : Except Thrown Int
  metadataResult : Except String (Option String × String)
  pageText : Int → Except String String
  images : List ExtractedImage

/-- Models `extractMetadataAndPageCount(pdfDocument, includeMetadata,
includePageCount)` (src/pdf/extractor.ts lines 9-52): page count when
requested; on a successful `getMetadata`, the info object when defined
and the metadata record always; a rejection is caught and only logged. -/
def extractMetadataAndPageCount (env : SourceEnv)
    (includeMetadata includePageCount : Bool) (numPages : Int) : PdfResultData :=
  let output : PdfResultData :=
    if includePageCount then { num_pages := some numPages } else {}
  if includeMetadata then
    match env.metadataResult with
    | .ok p => { output with info := p.1, metadata := some p.2 }
    | .error _ => output
  else output

/-- Models `extractSinglePageText` (src/pdf/extractor.ts lines 57-78):
a page rejection is caught and turned into an error text. -/
def extractSinglePageText (env : SourceEnv) (pageNum : Int) : ExtractedPageText :=
  match env.pageText pageNum with
  | .ok t => { page := pageNum, text := t }
  | .error m => { page := pageNum, text := "Error processing page: " ++ m }

/-- Ascending page order (`(a, b) => a.page - b.page`). -/
def byPageAsc (a b : ExtractedPageText) : Bool := decide (a.page ≤ b.page)

/-- Models `extractPageTexts` (src/pdf/extractor.ts lines 83-94):
extract every page (never rejects), sort by page number. -/
def extractPageTexts (env : SourceEnv) (pagesToProcess : List Int) :
    List ExtractedPageText :=
  stableSort byPageAsc (pagesToProcess.map (extractSinglePageText env))

/-- The defensive stringification of the catch block of
`processSingleSource` (src/handlers/readPdf.ts lines 90-104). -/
def stringifyThrown (sourceDescription : String) : Thrown → String
  | .mcp m => m
  | .err m => "Failed to process PDF from " ++ sourceDescription ++ ". Reason: " ++ m
  | .other j =>
    "Failed to process PDF from " ++ sourceDescription ++ ". Unknown error: " ++ j

/-- The request options of `read_pdf`. -/
structure ReadPdfOptions where
  include_full_text : Bool := false
  include_metadata : Bool := true
  include_page_count : Bool := true
  include_images : Bool := false
deriving DecidableEq, Repr

/-- The output assembly of the try block of `processSingleSource`
(src/handlers/readPdf.ts lines 42-88), after target pages and the page
count are known. -/
def assembleOutput (env : SourceEnv) (opts : ReadPdfOptions)
    (targetPages : Option (List Int)) (totalPages : Int) : PdfResultData :=
  let metadataOutput :=
    extractMetadataAndPageCount env opts.include_metadata opts.include_page_count
      totalPages
  let pair := determinePagesToProcess targetPages totalPages opts.include_full_text
  let pagesToProcess := pair.1
  let invalidPages := pair.2
  let warnings := buildWarnings invalidPages totalPages
  let output1 :=
    if warnings.isEmpty then metadataOutput
    else { metadataOutput with warnings := some warnings }
  let output2 :=
    if pagesToProcess.isEmpty then output1
    else
      let extractedPageTexts := extractPageTexts env pagesToProcess
      match targetPages with
      | some _ => { output1 with page_texts := some extractedPageTexts }
      | none =>
        { output1 with
          full_text :=
            some (String.intercalate "\n\n" (extractedPageTexts.map (fun p => p.text))) }
  if opts.include_images && !pagesToProcess.isEmpty then
    if env.images.isEmpty then output2
    else { output2 with images := some env.images }
  else output2

/-- Models `processSingleSource(source, options)`
(src/handlers/readPdf.ts lines 21-107): parse target pages, load the
document, assemble the output; any thrown value is caught at the source
boundary, stringified, and recorded as this source result error with
`success = false` and no data. -/
def processSingleSource (source : PdfSource) (env : SourceEnv)
    (opts : ReadPdfOptions) : PdfSourceResult :=
  let sourceDescription := source.path.getD (source.url.getD "unknown source")
  match getTargetPages source.pages sourceDescription with
  | .error t =>
    { source := sourceDescription, success := false, data := none,
      error := some (stringifyThrown sourceDescription t) }
  | .ok targetPages =>
    match env.loadResult with
    | .error t =>
      { source := sourceDescription, success := false, data := none,
        error := some (stringifyThrown sourceDescription t) }
    | .ok totalPages =>
      { source := sourceDescription, success := true,
        data := some (assembleOutput env opts targetPages totalPages),
        error := none }

/-- Models the `Promise.all(sources.map(processSingleSource ...))` fan
of `handleReadPdfFunc` (src/handlers/readPdf.ts lines 136-146): each
source is processed against its own environment; results keep request
order. -/
def handleResults (batch : List (PdfSource × SourceEnv)) (opts : ReadPdfOptions) :
    List PdfSourceResult :=
  batch.map (fun p => processSingleSource p.1 p.2 opts)

/-! Content assembly of `handleReadPdfFunc`
(src/handlers/readPdf.ts lines 148-217). -/

/-- One RPC content part: the tagged union of a text part and an inline
image part. -/
inductive ContentPart where
  | text (s : String)
  | image (data mime : String)
deriving DecidableEq, Repr

/-- The trimmed image record of the JSON summary (lines 156-162): page,
index, width, height and format, without the base64 payload. -/
def toImageInfo (img : ExtractedImage) : ImageInfo :=
  { page := img.page, index := img.index, width := img.width,
    height := img.height, format := img.format }

/-- Models the `resultsForJson` mapping (lines 152-166): when a result
carries image data, drop the `images` field and add `image_info` with
the metadata only. -/
def stripImages (r : PdfSourceResult) : PdfSourceResult :=
  match r.data with
  | some d =>
    match d.images with
    | some imgs =>
      { r with
        data := some { d with images := none, image_info := some (imgs.map toImageInfo) } }
    | none => r
  | none => r

/-- Rewrites every inline image payload by `f`, leaving everything else
unchanged; used to state that the JSON summary does not depend on the
image bytes. -/
def setImagePayloads (f : String → String) (r : PdfSourceResult) : PdfSourceResult :=
  match r.data with
  | some d =>
    { r with
      data := some
        { d with images := d.images.map (List.map (fun img => { img with data := f img.data })) } }
  | none => r

/-- A JSON document, the shape serialized by the summary part. -/
inductive Json where
  | null
  | bool (b : Bool)
  | num (n : Int)
  | str (s : String)
  | arr (xs : List Json)
  | obj (fields : List (String × Json))

/-- Modelled from the spec: the string escaping of the external
`JSON.stringify` builtin, for the characters our data can carry. -/
def jsonEscapeChar (c : Char) : List Char :=
  if c = '"' then ['\\', '"']
  else if c = '\\' then ['\\', '\\']
  else if c = '\n' then ['\\', 'n']
  else if c = '\r' then ['\\', 'r']
  else if c = '\t' then ['\\', 't']
  else [c]

/-- Escaped JSON string body. -/
def jsonEscape (s : String) : String :=
  String.mk (s.toList.flatMap jsonEscapeChar)

/-- An indentation of `n` spaces. -/
def nspaces (n : Nat) : String := String.mk (List.replicate n ' ')

mutual

/-- Modelled from the spec: the pretty-printing serialization
`JSON.stringify(value, null, 2)` (external JS builtin). -/
def renderJson : Nat → Json → String
  | _, .null => "null"
  | _, .bool true => "true"
  | _, .bool false => "false"
  | _, .num n => toString n
  | _, .str s => "\"" ++ jsonEscape s ++ "\""
  | ind, .arr xs =>
    match xs with
    | [] => "[]"
    | _ :: _ =>
      "[\n" ++ renderJsonItems (ind + 2) xs ++ "\n" ++ nspaces ind ++ "]"
  | ind, .obj fs =>
    match fs with
    | [] => "\x7b\x7d"
    | _ :: _ =>
      "\x7b\n" ++ renderJsonFields (ind + 2) fs ++ "\n" ++ nspaces ind ++ "\x7d"

/-- Array elements, comma/newline separated, each indented. -/
def renderJsonItems : Nat → List Json → String
  | _, [] => ""
  | ind, [x] => nspaces ind ++ renderJson ind x
  | ind, x :: y :: xs =>
    nspaces ind ++ renderJson ind x ++ ",\n" ++ renderJsonItems ind (y :: xs)

/-- Object fields, comma/newline separated, each indented. -/
def renderJsonFields : Nat → List (String × Json) → String
  | _, [] => ""
  | ind, [f] => nspaces ind ++ "\"" ++ jsonEscape f.1 ++ "\": " ++ renderJson ind f.2
  | ind, f :: g :: fs =>
    nspaces ind ++ "\"" ++ jsonEscape f.1 ++ "\": " ++ renderJson ind f.2 ++
      ",\n" ++ renderJsonFields ind (g :: fs)

end

/-- JSON encoding of one extracted image (all its enumerable fields). -/
def encodeImage (img : ExtractedImage) : Json :=
  .obj [("page", .num img.page), ("index", .num (img.index : Int)),
    ("width", .num (img.width : Int)), ("height", .num (img.height : Int)),
    ("format", .str img.format), ("data", .str img.data)]

/-- JSON encoding of one trimmed image record. -/
def encodeImageInfo (info : ImageInfo) : Json :=
  .obj [("page", .num info.page), ("index", .num (info.index : Int)),
    ("width", .num (info.width : Int)), ("height", .num (info.height : Int)),
    ("format", .str info.format)]

/-- JSON encoding of one per-page text. -/
def encodePageText (pt : ExtractedPageText) : Json :=
  .obj [("page", .num pt.page), ("text", .str pt.text)]

/-- JSON encoding of the per-source data object, fields in assignment
order, absent fields omitted (as `JSON.stringify` omits `undefined`). -/
def encodeData (d : PdfResultData) : Json :=
  .obj
    ((match d.num_pages with | some n => [("num_pages", Json.num n)] | none => []) ++
     (match d.info with | some s => [("info", Json.str s)] | none => []) ++
     (match d.metadata with | some s => [("metadata", Json.str s)] | none => []) ++
     (match d.warnings with
      | some ws => [("warnings", Json.arr (ws.map Json.str))]
      | none => []) ++
     (match d.page_texts with
      | some ps => [("page_texts", Json.arr (ps.map encodePageText))]
      | none => []) ++
     (match d.full_text with | some t => [("full_text", Json.str t)] | none => []) ++
     (match d.images with
      | some imgs => [("images", Json.arr (imgs.map encodeImage))]
      | none => []) ++
     (match d.image_info with
      | some infos => [("image_info", Json.arr (infos.map encodeImageInfo))]
      | none => []))

/-- JSON encoding of one source result. -/
def encodeResult (r : PdfSourceResult) : Json :=
  .obj
    ([("source", Json.str r.source), ("success", Json.bool r.success)] ++
     (match r.data with | some d => [("data", encodeData d)] | none => []) ++
     (match r.error with | some e => [("error", Json.str e)] | none => []))

/-- The first content part: `JSON.stringify({ results: resultsForJson },
null, 2)` wrapped as a text part (lines 168-172). -/
def summaryPart (results : List PdfSourceResult) : ContentPart :=
  .text (renderJson 0 (.obj [("results", .arr ((results.map stripImages).map encodeResult))]))

/-- One inline image part (lines 186-190 and 205-210): PNG mime for the
rgba format tag, JPEG otherwise. -/
def mkImagePart (img : ExtractedImage) : ContentPart :=
  .image img.data (if img.format = "rgba" then "image/png" else "image/jpeg")

/-- The parts pushed by the `page_texts` loop (lines 180-194): for each
per-page text, the images of that page (no text part is pushed). -/
def pageTextsImageParts (d : PdfResultData) : List ContentPart :=
  match d.page_texts with
  | some pts =>
    pts.flatMap fun pt =>
      match d.images with
      | some imgs => (imgs.filter (fun img => decide (img.page = pt.page))).map mkImagePart
      | none => []
  | none => []

/-- The parts pushed by the `full_text` block (lines 196-213): images
grouped by page in ascending page order (the `full_text` guard is a JS
truthiness test, so an empty string disables the block). -/
def fullTextImageParts (d : PdfResultData) : List ContentPart :=
  match d.full_text with
  | some t =>
    if t = "" then []
    else
      match d.images with
      | some imgs =>
        (stableSort intAsc (dedupKeepFirst (imgs.map (fun img => img.page)))).flatMap
          fun pn => (imgs.filter (fun img => decide (img.page = pn))).map mkImagePart
      | none => []
  | none => []

/-- The image parts one source contributes (lines 176-214): nothing for
a failed or data-less result. -/
def sourceImageParts (r : PdfSourceResult) : List ContentPart :=
  if r.success then
    match r.data with
    | some d => pageTextsImageParts d ++ fullTextImageParts d
    | none => []
  else []

/-- Models the content assembly of `handleReadPdfFunc` (lines 148-217):
the JSON summary part first, then - only when images were requested -
the image parts of every result in request order. -/
def buildContent (results : List PdfSourceResult) (includeImages : Bool) :
    List ContentPart :=
  summaryPart results ::
    (if includeImages then results.flatMap sourceImageParts else [])

/-! Concrete instances used by the claims and their witnesses. -/

/-- A page with a text run split across two items on the line at Y = 200
and one text item at Y = 50 (coordinates in thousandths). -/
def demoTextItems : List PdfTextItem :=
  [ { str := "Top ", transform := [1000, 0, 0, 1000, 0, 200000] },
    { str := "line", transform := [1000, 0, 0, 1000, 40000, 200000] },
    { str := "Bottom line", transform := [1000, 0, 0, 1000, 0, 50000] } ]

/-- A 1x1 RGB raw image record. -/
def demoImage : RawImage :=
  { data := some [1, 2, 3], width := 1, height := 1, kind := some 2 }

/-- A page carrying the demo text plus one image painted at Y = 150,
resolvable through the synchronous object table. -/
def demoPageEnv : PageEnv :=
  { textContent := .ok demoTextItems,
    operatorList := .ok
      [ (false, none),
        (true, some { name := "img0", placement := some [1000, 0, 0, 1000, 0, 150000] }) ],
    commonGet := fun _ => .ok none,
    syncGet := fun _ => .val (some demoImage),
    asyncEvents := fun _ => [] }

/-- A page whose `getTextContent` rejects. -/
def textErrPageEnv : PageEnv :=
  { textContent := .error "boom",
    operatorList := .ok [],
    commonGet := fun _ => .ok none,
    syncGet := fun _ => .undef,
    asyncEvents := fun _ => [] }

/-- An already-extracted image used in the content assembly instance. -/
def c3Img : ExtractedImage :=
  { page := 1, index := 0, width := 2, height := 2, format := "rgb", data := "AAAA" }

/-- A successful single-source batch result with one page text and one
image: the input of the content assembly counterexample. -/
def c3Results : List PdfSourceResult :=
  [ { source := "a.pdf", success := true,
      data := some
        { num_pages := some 1,
          page_texts := some [ { page := 1, text := "hello" } ],
          images := some [c3Img] },
      error := none } ]

/-- An environment whose document load succeeds with 2 pages. -/
def c7GoodEnv : SourceEnv :=
  { loadResult := .ok 2, metadataResult := .ok (some "info", "meta"),
    pageText := fun _ => .ok "txt", images := [] }

/-- An environment whose document load rejects with an `Error`. -/
def c7BadEnv : SourceEnv :=
  { loadResult := .error (.err "boom"), metadataResult := .error "x",
    pageText := fun _ => .ok "", images := [] }

/-- An environment whose document load rejects with a non-Error value
(`JSON.stringify` rendering "42"). -/
def c7UglyEnv : SourceEnv :=
  { loadResult := .error (.other "42"), metadataResult := .error "x",
    pageText := fun _ => .ok "", images := [] }

/-- A batch mixing one failing, one succeeding and one non-Error-failing
source. -/
def c7Batch : List (PdfSource × SourceEnv) :=
  [ ({ path := some "bad.pdf" }, c7BadEnv),
    ({ path := some "good.pdf" }, c7GoodEnv),
    ({ url := some "http://u/ugly.pdf" }, c7UglyEnv) ]

/-- The options used by the concrete batch instance. -/
def c7Opts : ReadPdfOptions := { include_full_text := true }

/-- An environment with a 10-page document. -/
def c9Env : SourceEnv :=
  { loadResult := .ok 10, metadataResult := .error "m",
    pageText := fun _ => .ok "t", images := [] }

/-- A source requesting pages 1, 15 and 20. -/
def c9Src : PdfSource := { path := some "s.pdf", pages := some (.arr [1, 15, 20]) }

/-- A plain succeeding environment for the result-shape instance. -/
def c10Env : SourceEnv :=
  { loadResult := .ok 3, metadataResult := .ok (none, "meta"),
    pageText := fun _ => .ok "page text", images := [] }

/-- A failing environment for the result-shape instance. -/
def c10FailEnv : SourceEnv :=
  { loadResult := .error (.err "nope"), metadataResult := .ok (none, "meta"),
    pageText := fun _ => .ok "", images := [] }

/-! Generic lemmas about the stable sort. -/

theorem mem_insertStable (r : α → α → Bool) (a x : α) (l : List α) :
    x ∈ insertStable r a l ↔ x = a ∨ x ∈ l := by
  induction l with
  | nil => simp [insertStable]
  | cons b bs ih =>
    by_cases h : r a b
    · simp [insertStable, h]
    · simp only [insertStable, if_neg h, List.mem_cons, ih]
      tauto

theorem pairwise_insertStable (r : α → α → Bool)
    (htot : ∀ x y, r x y = true ∨ r y x = true)
    (htrans : ∀ x y z, r x y = true → r y z = true → r x z = true)
    (a : α) (l : List α) (h : l.Pairwise (fun x y => r x y = true)) :
    (insertStable r a l).Pairwise (fun x y => r x y = true) := by
  induction l with
  | nil => simp [insertStable]
  | cons b bs ih =>
    rw [List.pairwise_cons] at h
    obtain ⟨hb, hbs⟩ := h
    by_cases hr : r a b
    · simp only [insertStable, if_pos hr]
      refine List.Pairwise.cons ?_ (List.Pairwise.cons hb hbs)
      intro x hx
      rcases List.mem_cons.mp hx with rfl | hx
      · exact hr
      · exact htrans a b x hr (hb x hx)
    · simp only [insertStable, if_neg hr]
      refine List.Pairwise.cons ?_ (ih hbs)
      intro x hx
      rcases (mem_insertStable r a x bs).mp hx with rfl | hx
      · rcases htot x b with h1 | h1
        · exact absurd h1 hr
        · exact h1
      · exact hb x hx

theorem pairwise_stableSort (r : α → α → Bool)
    (htot : ∀ x y, r x y = true ∨ r y x = true)
    (htrans : ∀ x y z, r x y = true → r y z = true → r x z = true)
    (l : List α) : (stableSort r l).Pairwise (fun x y => r x y = true) := by
  induction l with
  | nil => exact List.Pairwise.nil
  | cons x xs ih => exact pairwise_insertStable r htot htrans x _ ih

theorem length_insertStable (r : α → α → Bool) (a : α) (l : List α) :
    (insertStable r a l).length = l.length + 1 := by
  induction l with
  | nil => rfl
  | cons b bs ih =>
    by_cases h : r a b
    · simp [insertStable, h]
    · simp [insertStable, h, ih]

theorem length_stableSort (r : α → α → Bool) (l : List α) :
    (stableSort r l).length = l.length := by
  induction l with
  | nil => rfl
  | cons x xs ih => simp [stableSort, length_insertStable, ih]

/-- The sorted output of the content comparator is pairwise descending
in Y position. -/
theorem pairwise_sortContent (l : List ContentItem) :
    (sortContent l).Pairwise (fun a b => b.yPos ≤ a.yPos) := by
  have h := pairwise_stableSort byYDesc
    (fun x y => by
      rcases Int.le_total y.yPos x.yPos with h1 | h1
      · exact Or.inl (decide_eq_true h1)
      · exact Or.inr (decide_eq_true h1))
    (fun x y z hxy hyz =>
      decide_eq_true (Int.le_trans (of_decide_eq_true hyz) (of_decide_eq_true hxy)))
    l
  exact h.imp (fun hab => of_decide_eq_true hab)

/-! Lemmas about the single-resolution race. -/

theorem foldl_raceStep_some (es : List RaceEvent) (o : RaceOutcome) :
    es.foldl raceStep (some o) = some o := by
  induction es with
  | nil => rfl
  | cons e es ih => simpa [raceStep] using ih

theorem foldl_timedRaceStep_some (es : List (Nat × RaceEvent)) (o : Nat × RaceOutcome) :
    es.foldl timedRaceStep (some o) = some o := by
  induction es with
  | nil => rfl
  | cons e es ih => simpa [timedRaceStep] using ih

theorem runRace_eq_head (events : List RaceEvent) :
    runRace events = events.head?.map RaceEvent.outcome := by
  cases events with
  | nil => rfl
  | cons e es =>
    show (e :: es).foldl raceStep none = some e.outcome
    rw [List.foldl_cons]
    exact foldl_raceStep_some es e.outcome

/-- C4: for every image reference falling back to asynchronous
resolution, the pending result is resolved exactly once, by whichever of
the delivery callback or the 10-second timer fires first (the other is a
no-op); when the callback never fires, the timer event - scheduled at
TIMEOUT_MS = 10000 ms - resolves the image to absent within that bound;
and in the extractor, such an image resolves to exactly what the race
delivers (absent on timeout). -/
theorem c4_image_race_single_resolution_timeout :
    (∀ events : List RaceEvent, runRace events = events.head?.map RaceEvent.outcome)
  ∧ (∀ (events : List RaceEvent) (e : RaceEvent),
      runRace events ≠ none → runRace (events ++ [e]) = runRace events)
  ∧ (∀ tr : List (Nat × RaceEvent),
      (∀ p ∈ tr, ∀ v, p.2 ≠ RaceEvent.callback v) →
      (TIMEOUT_MS, RaceEvent.timer) ∈ tr →
      (∀ p ∈ tr, p.1 = TIMEOUT_MS) →
      runTimedRace tr = some (TIMEOUT_MS, RaceOutcome.timedOut))
  ∧ (∀ (pg : PageEnv) (pageNum : Int) (arrayIndex : Nat) (args : ImgArgs),
      pg.syncGet args.name = .undef →
      isSharedObjName args.name = false →
      ((∀ v, runRace (pg.asyncEvents args.name) = some (.delivered v) →
          resolveImageItem pg pageNum arrayIndex (some args) =
            processImageData v pageNum arrayIndex (imageYPosition args))
       ∧ (runRace (pg.asyncEvents args.name) = some .timedOut →
          resolveImageItem pg pageNum arrayIndex (some args) = none))) := by
  refine ⟨runRace_eq_head, ?_, ?_, ?_⟩
  · intro events e h
    rw [runRace, List.foldl_append]
    rcases ho : runRace events with _ | o
    · exact absurd ho h
    · rw [runRace] at ho
      rw [ho]
      rfl
  · intro tr hnc hmem htime
    cases tr with
    | nil => simp at hmem
    | cons p rest =>
      have ht : p.1 = TIMEOUT_MS := htime p (List.mem_cons_self _ _)
      have he : p.2 = RaceEvent.timer := by
        cases hp : p.2 with
        | timer => rfl
        | callback v => exact absurd hp (hnc p (List.mem_cons_self _ _) v)
      show (p :: rest).foldl timedRaceStep none = some (TIMEOUT_MS, RaceOutcome.timedOut)
      rw [List.foldl_cons]
      have : timedRaceStep none p = some (TIMEOUT_MS, RaceOutcome.timedOut) := by
        simp [timedRaceStep, ht, he, RaceEvent.outcome]
      rw [this]
      exact foldl_timedRaceStep_some rest _
  · intro pg pageNum arrayIndex args hsync hshared
    constructor
    · intro v hrace
      simp [resolveImageItem, hsync, hshared, hrace]
    · intro hrace
      simp [resolveImageItem, hsync, hshared, hrace]

/-- C4 witness: a trace where only the timer fires resolves to a timeout
at 10000 ms. -/
theorem c4_witness :
    runTimedRace [(TIMEOUT_MS, RaceEvent.timer)] =
      some (TIMEOUT_MS, RaceOutcome.timedOut) :=
  c4_image_race_single_resolution_timeout.2.2.1 [(TIMEOUT_MS, RaceEvent.timer)]
    (by
      intro p hp v
      rcases List.mem_singleton.mp hp with rfl
      simp)
    (List.mem_singleton.mpr rfl)
    (by
      intro p hp
      rcases List.mem_singleton.mp hp with rfl
      rfl)

/-- C2: the page content extractor is total (it returns a plain list for
every page environment and argument combination - all rejection points
of the source are caught), and when any awaited extraction step fails,
the result is exactly one synthetic text item at yPosition 0 carrying the
error message. -/
theorem c2_extractPageContent_degrades_to_synthetic_item :
    (∀ (m : String) (pageNum : Int) (includeImages : Bool),
      extractPageContent (.error m) pageNum includeImages =
        [.text 0 ("Error processing page: " ++ m)])
  ∧ (∀ (pg : PageEnv) (m : String) (pageNum : Int) (includeImages : Bool),
      pg.textContent = .error m →
      extractPageContent (.ok pg) pageNum includeImages =
        [.text 0 ("Error processing page: " ++ m)])
  ∧ (∀ (pg : PageEnv) (items : List PdfTextItem) (m : String) (pageNum : Int),
      pg.textContent = .ok items →
      pg.operatorList = .error m →
      extractPageContent (.ok pg) pageNum true =
        [.text 0 ("Error processing page: " ++ m)]) := by
  refine ⟨?_, ?_, ?_⟩
  · intro m pageNum includeImages
    rfl
  · intro pg m pageNum includeImages htc
    simp [extractPageContent, htc]
  · intro pg items m pageNum htc hop
    simp [extractPageContent, htc, hop]

/-- C2 witness: a page whose getTextContent rejects with "boom" yields
the single synthetic item. -/
theorem c2_witness :
    extractPageContent (.ok textErrPageEnv) 3 true =
      [.text 0 "Error processing page: boom"] :=
  c2_extractPageContent_degrades_to_synthetic_item.2.1 textErrPageEnv "boom" 3 true rfl

/-- C10: a finalized source result never carries both data and an error
and never carries neither: success implies data present and error
absent; failure implies error present and data absent. -/
theorem c10_result_mutual_exclusion (src : PdfSource) (env : SourceEnv)
    (opts : ReadPdfOptions) :
    ((processSingleSource src env opts).success = true →
      (∃ d, (processSingleSource src env opts).data = some d) ∧
      (processSingleSource src env opts).error = none)
  ∧ ((processSingleSource src env opts).success = false →
      (∃ m, (processSingleSource src env opts).error = some m) ∧
      (processSingleSource src env opts).data = none) := by
  rcases h1 : getTargetPages src.pages (src.path.getD (src.url.getD "unknown source"))
    with t | tp
  · refine ⟨?_, ?_⟩
    · intro h
      simp [processSingleSource, h1] at h
    · intro _
      simp [processSingleSource, h1]
  · rcases h2 : env.loadResult with t | total
    · refine ⟨?_, ?_⟩
      · intro h
        simp [processSingleSource, h1, h2] at h
      · intro _
        simp [processSingleSource, h1, h2]
    · refine ⟨?_, ?_⟩
      · intro _
        simp [processSingleSource, h1, h2]
      · intro h
        simp [processSingleSource, h1, h2] at h

/-- C10 witness: the invariant evaluated on one succeeding and one
failing environment. -/
theorem c10_witness :
    ((∃ d, (processSingleSource { path := some "w.pdf" } c10Env {}).data = some d) ∧
      (processSingleSource { path := some "w.pdf" } c10Env {}).error = none) ∧
    ((∃ m, (processSingleSource { path := some "w.pdf" } c10FailEnv {}).error = some m) ∧
      (processSingleSource { path := some "w.pdf" } c10FailEnv {}).data = none) :=
  ⟨(c10_result_mutual_exclusion { path := some "w.pdf" } c10Env {}).1 (by decide),
   (c10_result_mutual_exclusion { path := some "w.pdf" } c10FailEnv {}).2 (by decide)⟩

/-- Splitting a hyphen-free prefix followed by the separator yields the
prefix and one empty piece. -/
theorem jsSplit_sep_end (s : List Char) (h : '-' ∉ s) :
    jsSplit '-' (s ++ ['-']) = [s, []] := by
  induction s with
  | nil => rfl
  | cons c cs ih =>
    have hc : ¬(c = '-') := fun hc => h (hc ▸ List.mem_cons_self _ _)
    have hcs : '-' ∉ cs := fun hm => h (List.mem_cons_of_mem _ hm)
    simp only [List.cons_append, jsSplit, List.append_eq, ih hcs, if_neg hc]

/-- C8: resolving an open-ended selector `start-` terminates with the
finite page set `start .. start + MAX_RANGE_SIZE` (10001 pages), reported
as a success (`Except.ok`, not an error) together with the logged
truncation advisory. -/
theorem c8_open_range_clamped (p s : List Char) (start : Int)
    (htrim : trimL p = s ++ ['-'])
    (hnodash : '-' ∉ s)
    (hparse : jsParseInt s = some start)
    (hpos : 1 ≤ start) :
    parseRangePart p =
      .ok (intRangeIncl start (start + MAX_RANGE_SIZE),
        some ("[PDF Reader MCP] Open-ended range starting at " ++ toString start ++
          " was truncated at page " ++ toString (start + MAX_RANGE_SIZE) ++ ".")) ∧
    (intRangeIncl start (start + MAX_RANGE_SIZE)).length = 10001 := by
  constructor
  · have hcontains : (s ++ ['-']).contains '-' = true := by
      simp
    have hnotle : ¬(start ≤ 0) := by omega
    rw [parseRangePart, htrim]
    rw [hcontains]
    simp only [if_true, jsSplit_sep_end s hnodash, hparse, List.head?_cons,
      List.isEmpty_cons, List.isEmpty_nil]
    simp [hnotle, MAX_RANGE_SIZE]
  · have hl : (intRangeIncl start (start + MAX_RANGE_SIZE)).length =
        (start + MAX_RANGE_SIZE + 1 - start).toNat := by
      unfold intRangeIncl
      rw [List.length_map, List.length_range]
    rw [hl]
    simp only [MAX_RANGE_SIZE]
    omega

/-- C8 witness: resolving "1-" yields pages 1 .. 10001 with the advisory
and no error. -/
theorem c8_witness :
    parseRangePart "1-".toList =
      .ok (intRangeIncl 1 (1 + MAX_RANGE_SIZE),
        some ("[PDF Reader MCP] Open-ended range starting at 1" ++
          " was truncated at page 10001.")) ∧
    (intRangeIncl 1 (1 + MAX_RANGE_SIZE)).length = 10001 :=
  c8_open_range_clamped "1-".toList ['1'] 1 (by decide) (by decide) (by decide)
    (by decide)

/-! Characterization of the per-pixel write loop. -/

theorem pixelLoopAux_succ (f : Nat → Nat × Nat × Nat) (w h n : Nat) :
    pixelLoopAux f w h (n + 1) =
      setPixel (pixelLoopAux f w h n) n (f n).1 (f n).2.1 (f n).2.2 := by
  unfold pixelLoopAux
  rw [List.range_succ, List.foldl_append]
  rfl

theorem pixelLoopAux_length (f : Nat → Nat × Nat × Nat) (w h n : Nat) :
    (pixelLoopAux f w h n).length = 4 * (w * h) := by
  induction n with
  | zero => simp [pixelLoopAux]
  | succ n ih =>
    rw [pixelLoopAux_succ]
    simp [setPixel, ih]

theorem pixelLoopAux_getElem_ge (f : Nat → Nat × Nat × Nat) (w h : Nat) :
    ∀ (n j : Nat), 4 * n ≤ j →
      (pixelLoopAux f w h n)[j]? = (List.replicate (4 * (w * h)) (0 : Nat))[j]? := by
  intro n
  induction n with
  | zero => intro j _; rfl
  | succ n ih =>
    intro j hj
    rw [pixelLoopAux_succ]
    unfold setPixel
    rw [List.getElem?_set, if_neg (by omega : ¬(4 * n + 3 = j))]
    rw [List.getElem?_set, if_neg (by omega : ¬(4 * n + 2 = j))]
    rw [List.getElem?_set, if_neg (by omega : ¬(4 * n + 1 = j))]
    rw [List.getElem?_set, if_neg (by omega : ¬(4 * n = j))]
    exact ih j (by omega)

theorem pixelLoopAux_getElem_lt (f : Nat → Nat × Nat × Nat) (w h : Nat) :
    ∀ (n : Nat), n ≤ w * h → ∀ i, i < n →
      (pixelLoopAux f w h n)[4 * i]? = some ((f i).1 % 256) ∧
      (pixelLoopAux f w h n)[4 * i + 1]? = some ((f i).2.1 % 256) ∧
      (pixelLoopAux f w h n)[4 * i + 2]? = some ((f i).2.2 % 256) ∧
      (pixelLoopAux f w h n)[4 * i + 3]? = some 255 := by
  intro n
  induction n with
  | zero => intro _ i hi; omega
  | succ n ih =>
    intro hn i hi
    rcases Nat.lt_succ_iff_lt_or_eq.mp hi with hlt | rfl
    · have hrec := ih (by omega) i hlt
      rw [pixelLoopAux_succ]
      unfold setPixel
      refine ⟨?_, ?_, ?_, ?_⟩
      · rw [List.getElem?_set, if_neg (by omega : ¬(4 * n + 3 = 4 * i))]
        rw [List.getElem?_set, if_neg (by omega : ¬(4 * n + 2 = 4 * i))]
        rw [List.getElem?_set, if_neg (by omega : ¬(4 * n + 1 = 4 * i))]
        rw [List.getElem?_set, if_neg (by omega : ¬(4 * n = 4 * i))]
        exact hrec.1
      · rw [List.getElem?_set, if_neg (by omega : ¬(4 * n + 3 = 4 * i + 1))]
        rw [List.getElem?_set, if_neg (by omega : ¬(4 * n + 2 = 4 * i + 1))]
        rw [List.getElem?_set, if_neg (by omega : ¬(4 * n + 1 = 4 * i + 1))]
        rw [List.getElem?_set, if_neg (by omega : ¬(4 * n = 4 * i + 1))]
        exact hrec.2.1
      · rw [List.getElem?_set, if_neg (by omega : ¬(4 * n + 3 = 4 * i + 2))]
        rw [List.getElem?_set, if_neg (by omega : ¬(4 * n + 2 = 4 * i + 2))]
        rw [List.getElem?_set, if_neg (by omega : ¬(4 * n + 1 = 4 * i + 2))]
        rw [List.getElem?_set, if_neg (by omega : ¬(4 * n = 4 * i + 2))]
        exact hrec.2.2.1
      · rw [List.getElem?_set, if_neg (by omega : ¬(4 * n + 3 = 4 * i + 3))]
        rw [List.getElem?_set, if_neg (by omega : ¬(4 * n + 2 = 4 * i + 3))]
        rw [List.getElem?_set, if_neg (by omega : ¬(4 * n + 1 = 4 * i + 3))]
        rw [List.getElem?_set, if_neg (by omega : ¬(4 * n = 4 * i + 3))]
        exact hrec.2.2.2
    · rw [pixelLoopAux_succ]
      unfold setPixel
      have hlen := pixelLoopAux_length f w h i
      refine ⟨?_, ?_, ?_, ?_⟩
      · rw [List.getElem?_set, if_neg (by omega : ¬(4 * i + 3 = 4 * i))]
        rw [List.getElem?_set, if_neg (by omega : ¬(4 * i + 2 = 4 * i))]
        rw [List.getElem?_set, if_neg (by omega : ¬(4 * i + 1 = 4 * i))]
        rw [List.getElem?_set, if_pos rfl, if_pos (by rw [hlen]; omega)]
      · rw [List.getElem?_set, if_neg (by omega : ¬(4 * i + 3 = 4 * i + 1))]
        rw [List.getElem?_set, if_neg (by omega : ¬(4 * i + 2 = 4 * i + 1))]
        rw [List.getElem?_set, if_pos rfl,
          if_pos (by rw [List.length_set, hlen]; omega)]
      · rw [List.getElem?_set, if_neg (by omega : ¬(4 * i + 3 = 4 * i + 2))]
        rw [List.getElem?_set, if_pos rfl,
          if_pos (by rw [List.length_set, List.length_set, hlen]; omega)]
      · rw [List.getElem?_set, if_pos rfl,
          if_pos (by rw [List.length_set, List.length_set, List.length_set, hlen]; omega)]

theorem pixelLoop_spec (f : Nat → Nat × Nat × Nat) (w h : Nat) :
    (pixelLoop f w h).length = 4 * (w * h) ∧
    ∀ i, i < w * h →
      (pixelLoop f w h)[4 * i]? = some ((f i).1 % 256) ∧
      (pixelLoop f w h)[4 * i + 1]? = some ((f i).2.1 % 256) ∧
      (pixelLoop f w h)[4 * i + 2]? = some ((f i).2.2 % 256) ∧
      (pixelLoop f w h)[4 * i + 3]? = some 255 :=
  ⟨pixelLoopAux_length f w h (w * h),
   fun i hi => pixelLoopAux_getElem_lt f w h (w * h) (Nat.le_refl _) i hi⟩

/-- C5: the RGBA raster built by the pixel decoder: with channels = 3
each pixel takes its three consecutive samples as R,G,B and alpha 255
(an input of w*h pixels yields a 4*w*h-byte plane); with channels = 1 the
single luminance sample is replicated into R, G and B with alpha 255;
with channels = 4 the payload is copied through unchanged; and the
output is the base64 of the PNG encoding of that raster. -/
theorem c5_encodePixelsToPNG_rgba_construction :
    (∀ (d : List Nat) (w h i : Nat), i < w * h →
      (pngDataOfChannels d w h 3).length = 4 * (w * h) ∧
      (pngDataOfChannels d w h 3)[4 * i]? = some (toByte (d.getD (i * 3) 0)) ∧
      (pngDataOfChannels d w h 3)[4 * i + 1]? = some (toByte (d.getD (i * 3 + 1) 0)) ∧
      (pngDataOfChannels d w h 3)[4 * i + 2]? = some (toByte (d.getD (i * 3 + 2) 0)) ∧
      (pngDataOfChannels d w h 3)[4 * i + 3]? = some 255)
  ∧ (∀ (d : List Nat) (w h i : Nat), i < w * h →
      (pngDataOfChannels d w h 1).length = 4 * (w * h) ∧
      (pngDataOfChannels d w h 1)[4 * i]? = some (toByte (d.getD i 0)) ∧
      (pngDataOfChannels d w h 1)[4 * i + 1]? = some (toByte (d.getD i 0)) ∧
      (pngDataOfChannels d w h 1)[4 * i + 2]? = some (toByte (d.getD i 0)) ∧
      (pngDataOfChannels d w h 1)[4 * i + 3]? = some 255)
  ∧ (∀ (d : List Nat) (w h : Nat), (∀ b ∈ d, b < 256) →
      pngDataOfChannels d w h 4 = d)
  ∧ (∀ (d : List Nat) (w h c : Nat),
      encodePixelsToPNG d w h c =
        base64Encode (pngEncode w h (pngDataOfChannels d w h c))) := by
  refine ⟨?_, ?_, ?_, fun d w h c => rfl⟩
  · intro d w h i hi
    have hspec := pixelLoop_spec
      (fun i => (d.getD (i * 3) 0, d.getD (i * 3 + 1) 0, d.getD (i * 3 + 2) 0)) w h
    exact ⟨hspec.1, (hspec.2 i hi).1, (hspec.2 i hi).2.1, (hspec.2 i hi).2.2.1,
      (hspec.2 i hi).2.2.2⟩
  · intro d w h i hi
    have hspec := pixelLoop_spec (fun i => (d.getD i 0, d.getD i 0, d.getD i 0)) w h
    exact ⟨hspec.1, (hspec.2 i hi).1, (hspec.2 i hi).2.1, (hspec.2 i hi).2.2.1,
      (hspec.2 i hi).2.2.2⟩
  · intro d w h hb
    show d.map toByte = d
    induction d with
    | nil => rfl
    | cons x xs ih =>
      have hx : toByte x = x :=
        Nat.mod_eq_of_lt (hb x (List.mem_cons_self _ _))
      simp only [List.map_cons, hx, List.cons.injEq, true_and]
      exact ih (fun b hbm => hb b (List.mem_cons_of_mem _ hbm))

/-- C5 witness: the second pixel of a 2x1 RGB buffer lands at bytes 4..7
of the RGBA plane with alpha 255. -/
theorem c5_witness :
    (pngDataOfChannels [10, 20, 30, 40, 50, 60] 2 1 3)[4 * 1 + 3]? = some 255 ∧
    (pngDataOfChannels [10, 20, 30, 40, 50, 60] 2 1 3)[4 * 1]? =
      some (toByte (([10, 20, 30, 40, 50, 60] : List Nat).getD (1 * 3) 0)) :=
  ⟨(c5_encodePixelsToPNG_rgba_construction.1 [10, 20, 30, 40, 50, 60] 2 1 1
      (by decide)).2.2.2.2,
   (c5_encodePixelsToPNG_rgba_construction.1 [10, 20, 30, 40, 50, 60] 2 1 1
      (by decide)).2.1⟩

/-- C6: the pixel decoder is total over every buffer length for each of
channels 1, 3 and 4 (the Lean model is a total function); undersized
buffers read as 0 for the missing samples (with alpha still 255) and the
output RGBA plane still has its full 4*w*h size; channels = 4 copies the
buffer bytewise whatever its length; and encoding always produces a
string. -/
theorem c6_encodePixelsToPNG_total_defensive :
    (∀ (d : List Nat) (w h : Nat),
      (pngDataOfChannels d w h 1).length = 4 * (w * h) ∧
      (pngDataOfChannels d w h 3).length = 4 * (w * h))
  ∧ (∀ (d : List Nat) (w h i : Nat), i < w * h → d.length ≤ i * 3 →
      (pngDataOfChannels d w h 3)[4 * i]? = some 0 ∧
      (pngDataOfChannels d w h 3)[4 * i + 1]? = some 0 ∧
      (pngDataOfChannels d w h 3)[4 * i + 2]? = some 0 ∧
      (pngDataOfChannels d w h 3)[4 * i + 3]? = some 255)
  ∧ (∀ (d : List Nat) (w h i : Nat), i < w * h → d.length ≤ i →
      (pngDataOfChannels d w h 1)[4 * i]? = some 0 ∧
      (pngDataOfChannels d w h 1)[4 * i + 1]? = some 0 ∧
      (pngDataOfChannels d w h 1)[4 * i + 2]? = some 0 ∧
      (pngDataOfChannels d w h 1)[4 * i + 3]? = some 255)
  ∧ (∀ (d : List Nat) (w h : Nat), pngDataOfChannels d w h 4 = d.map toByte)
  ∧ (∀ (d : List Nat) (w h c : Nat), ∃ s, encodePixelsToPNG d w h c = s) := by
  refine ⟨?_, ?_, ?_, fun d w h => rfl, fun d w h c => ⟨_, rfl⟩⟩
  · intro d w h
    exact ⟨(pixelLoop_spec (fun i => (d.getD i 0, d.getD i 0, d.getD i 0)) w h).1,
      (pixelLoop_spec
        (fun i => (d.getD (i * 3) 0, d.getD (i * 3 + 1) 0, d.getD (i * 3 + 2) 0)) w h).1⟩
  · intro d w h i hi hlen
    have h0 : d.getD (i * 3) 0 = 0 := List.getD_eq_default d 0 hlen
    have h1 : d.getD (i * 3 + 1) 0 = 0 := List.getD_eq_default d 0 (by omega)
    have h2 : d.getD (i * 3 + 2) 0 = 0 := List.getD_eq_default d 0 (by omega)
    have hspec := (pixelLoop_spec
      (fun i => (d.getD (i * 3) 0, d.getD (i * 3 + 1) 0, d.getD (i * 3 + 2) 0)) w h).2 i hi
    refine ⟨?_, ?_, ?_, hspec.2.2.2⟩
    · exact hspec.1.trans (by rw [show ((d.getD (i * 3) 0, d.getD (i * 3 + 1) 0,
        d.getD (i * 3 + 2) 0)).1 = d.getD (i * 3) 0 from rfl, h0])
    · exact hspec.2.1.trans (by rw [show ((d.getD (i * 3) 0, d.getD (i * 3 + 1) 0,
        d.getD (i * 3 + 2) 0)).2.1 = d.getD (i * 3 + 1) 0 from rfl, h1])
    · exact hspec.2.2.1.trans (by rw [show ((d.getD (i * 3) 0, d.getD (i * 3 + 1) 0,
        d.getD (i * 3 + 2) 0)).2.2 = d.getD (i * 3 + 2) 0 from rfl, h2])
  · intro d w h i hi hlen
    have h0 : d.getD i 0 = 0 := List.getD_eq_default d 0 hlen
    have hspec := (pixelLoop_spec (fun i => (d.getD i 0, d.getD i 0, d.getD i 0)) w h).2 i hi
    refine ⟨?_, ?_, ?_, hspec.2.2.2⟩
    · exact hspec.1.trans (by rw [show ((d.getD i 0, d.getD i 0, d.getD i 0)).1 =
        d.getD i 0 from rfl, h0])
    · exact hspec.2.1.trans (by rw [show ((d.getD i 0, d.getD i 0, d.getD i 0)).2.1 =
        d.getD i 0 from rfl, h0])
    · exact hspec.2.2.1.trans (by rw [show ((d.getD i 0, d.getD i 0, d.getD i 0)).2.2 =
        d.getD i 0 from rfl, h0])

/-- C6 witness: an empty sample buffer still produces a full 4-byte RGBA
pixel, all channels 0 and alpha 255. -/
theorem c6_witness :
    (pngDataOfChannels [] 1 1 3)[0]? = some 0 ∧
    (pngDataOfChannels [] 1 1 3)[3]? = some 255 :=
  ⟨by
    have h := (c6_encodePixelsToPNG_total_defensive.2.1 [] 1 1 0 (by decide) (by decide)).1
    simpa using h,
   by
    have h :=
      (c6_encodePixelsToPNG_total_defensive.2.1 [] 1 1 0 (by decide) (by decide)).2.2.2
    simpa using h⟩

/-! Characterization of the text grouping map. -/

theorem lookupY_insertByY_self (m : List (Int × List String)) (y : Int) (s : String) :
    lookupY (insertByY m y s) y = some ((lookupY m y).getD [] ++ [s]) := by
  induction m with
  | nil => simp [insertByY, lookupY]
  | cons p rest ih =>
    rcases p with ⟨k, parts⟩
    by_cases hk : k = y
    · subst hk
      simp [insertByY, lookupY]
    · simp [insertByY, lookupY, hk, ih]

theorem lookupY_insertByY_ne (m : List (Int × List String)) (y y' : Int) (s : String)
    (h : y' ≠ y) : lookupY (insertByY m y s) y' = lookupY m y' := by
  induction m with
  | nil => simp [insertByY, lookupY, if_neg (Ne.symm h)]
  | cons p rest ih =>
    rcases p with ⟨k, parts⟩
    by_cases hk : k = y
    · subst hk
      simp [insertByY, lookupY, if_neg (Ne.symm h)]
    · by_cases hk' : k = y'
      · subst hk'
        simp [insertByY, lookupY, hk]
      · simp [insertByY, lookupY, hk, hk', ih]

theorem lookupY_foldl_groupStep (items : List PdfTextItem) :
    ∀ (m : List (Int × List String)) (y : Int),
      lookupY (items.foldl groupStep m) y =
        match lookupY m y with
        | some acc => some (acc ++ strsAtY items y)
        | none => if strsAtY items y = [] then none else some (strsAtY items y) := by
  induction items with
  | nil =>
    intro m y
    rcases h : lookupY m y with _ | acc
    · simp [strsAtY, h]
    · simp [strsAtY, h]
  | cons it rest ih =>
    intro m y
    rw [List.foldl_cons]
    rcases ht : it.transform[5]? with _ | v
    · have hstep : groupStep m it = m := by simp [groupStep, ht]
      have hstrs : strsAtY (it :: rest) y = strsAtY rest y := by
        simp [strsAtY, List.filterMap_cons, ht]
      rw [hstep, hstrs, ih m y]
    · by_cases hy : jsRound v = y
      · have hstep : groupStep m it = insertByY m y it.str := by
          simp [groupStep, ht, hy]
        have hstrs : strsAtY (it :: rest) y = it.str :: strsAtY rest y := by
          simp [strsAtY, List.filterMap_cons, ht, hy]
        rw [hstep, hstrs, ih (insertByY m y it.str) y, lookupY_insertByY_self]
        rcases hm : lookupY m y with _ | acc
        · simp
        · simp
      · have hstep : groupStep m it = insertByY m (jsRound v) it.str := by
          simp [groupStep, ht]
        have hstrs : strsAtY (it :: rest) y = strsAtY rest y := by
          simp [strsAtY, List.filterMap_cons, ht, hy]
        rw [hstep, hstrs, ih (insertByY m (jsRound v) it.str) y,
          lookupY_insertByY_ne m (jsRound v) y it.str (fun hc => hy hc.symm)]

/-- The grouped map holds, under each rounded Y key, exactly the strings
of the items rounding to that key, in encounter order. -/
theorem lookupY_groupTextByY (items : List PdfTextItem) (y : Int)
    (parts : List String) (h : lookupY (groupTextByY items) y = some parts) :
    parts = strsAtY items y := by
  have haux := lookupY_foldl_groupStep items [] y
  rw [groupTextByY] at h
  rw [h] at haux
  rcases hs : strsAtY items y with _ | ⟨p, ps⟩
  · rw [hs] at haux
    simp [lookupY] at haux
  · rw [hs] at haux
    simp [lookupY] at haux
    exact haux

/-- C1: within one page, the output of the page content extractor is
sorted by yPosition descending (for every environment and argument
combination, including the degraded single-item outputs); text items on
the same rounded yPosition are concatenated in encounter order before
sorting; and the page with text at Y=200 and Y=50 plus one image at
Y=150 yields exactly [text@200, image@150, text@50]. -/
theorem c1_extractPageContent_sorted_and_grouped :
    (∀ (page : Except String PageEnv) (pageNum : Int) (includeImages : Bool),
      (extractPageContent page pageNum includeImages).Pairwise
        (fun a b => b.yPos ≤ a.yPos))
  ∧ (∀ (items : List PdfTextItem) (y : Int) (parts : List String),
      lookupY (groupTextByY items) y = some parts → parts = strsAtY items y)
  ∧ extractPageContent (.ok demoPageEnv) 1 true =
      [ .text 200 "Top line",
        .image 150 { page := 1, index := 0, width := 1, height := 1, format := "rgb",
                     data := encodePixelsToPNG [1, 2, 3] 1 1 3 },
        .text 50 "Bottom line" ] := by
  refine ⟨?_, lookupY_groupTextByY, by decide⟩
  intro page pageNum includeImages
  rcases page with m | pg
  · simp [extractPageContent]
  · rcases htc : pg.textContent with m | items
    · simp [extractPageContent, htc]
    · cases includeImages with
      | false => simp [extractPageContent, htc, pairwise_sortContent]
      | true =>
        rcases hop : pg.operatorList with m | ops
        · simp [extractPageContent, htc, hop]
        · simp [extractPageContent, htc, hop, pairwise_sortContent]

/-- C1 witness: the two runs sharing rounded Y = 200 are grouped into
one line in encounter order. -/
theorem c1_witness :
    lookupY (groupTextByY demoTextItems) 200 = some ["Top ", "line"] ∧
    ["Top ", "line"] = strsAtY demoTextItems 200 :=
  ⟨by decide,
   c1_extractPageContent_sorted_and_grouped.2.1 demoTextItems 200 ["Top ", "line"]
     (by decide)⟩

/-- C7: a batch produces one result per source, each source result
depends only on that source and its own environment (a sibling failure
cannot change it), and the concrete mixed batch - one load failure, one
success, one non-Error thrown value - yields both failure results with
their stringified errors and the untouched sibling success. -/
theorem c7_batch_isolation :
    (∀ (batch : List (PdfSource × SourceEnv)) (opts : ReadPdfOptions),
      (handleResults batch opts).length = batch.length)
  ∧ (∀ (batch batch' : List (PdfSource × SourceEnv)) (opts : ReadPdfOptions) (i : Nat),
      batch[i]? = batch'[i]? →
      (handleResults batch opts)[i]? = (handleResults batch' opts)[i]?)
  ∧ handleResults c7Batch c7Opts =
      [ ⟨"bad.pdf", false, none,
          some "Failed to process PDF from bad.pdf. Reason: boom"⟩,
        ⟨"good.pdf", true,
          some ⟨some 2, some "info", some "meta", none, none,
            some "txt\n\ntxt", none, none⟩,
          none⟩,
        ⟨"http://u/ugly.pdf", false, none,
          some "Failed to process PDF from http://u/ugly.pdf. Unknown error: 42"⟩ ] := by
  refine ⟨?_, ?_, by decide⟩
  · intro batch opts
    simp [handleResults]
  · intro batch batch' opts i hi
    rw [handleResults, handleResults, List.getElem?_map, List.getElem?_map, hi]

/-- C7 witness: the independence statement applied to the concrete batch
at index 0. -/
theorem c7_witness :
    (handleResults c7Batch c7Opts)[0]? = (handleResults c7Batch c7Opts)[0]? :=
  c7_batch_isolation.2.1 c7Batch c7Batch c7Opts 0 rfl

/-! Helper lemmas for the per-source output assembly. -/

theorem buildWarnings_isEmpty (inv : List Int) (tot : Int) :
    (buildWarnings inv tot).isEmpty = inv.isEmpty := by
  unfold buildWarnings
  cases h : inv.isEmpty <;> simp [h]

theorem extractMetadataAndPageCount_warnings (env : SourceEnv)
    (im ic : Bool) (n : Int) :
    (extractMetadataAndPageCount env im ic n).warnings = none := by
  rcases h : env.metadataResult with m | p <;> cases im <;> cases ic <;>
    simp [extractMetadataAndPageCount, h]

theorem extractMetadataAndPageCount_page_texts (env : SourceEnv)
    (im ic : Bool) (n : Int) :
    (extractMetadataAndPageCount env im ic n).page_texts = none := by
  rcases h : env.metadataResult with m | p <;> cases im <;> cases ic <;>
    simp [extractMetadataAndPageCount, h]

theorem assembleOutput_warnings (env : SourceEnv) (opts : ReadPdfOptions)
    (targetPages : Option (List Int)) (totalPages : Int) :
    (assembleOutput env opts targetPages totalPages).warnings =
      (if (buildWarnings
            (determinePagesToProcess targetPages totalPages opts.include_full_text).2
            totalPages).isEmpty
       then none
       else some (buildWarnings
            (determinePagesToProcess targetPages totalPages opts.include_full_text).2
            totalPages)) := by
  simp only [assembleOutput]
  repeat' split
  all_goals simp_all [extractMetadataAndPageCount_warnings]

theorem assembleOutput_page_texts (env : SourceEnv) (opts : ReadPdfOptions)
    (tp : List Int) (totalPages : Int) :
    (assembleOutput env opts (some tp) totalPages).page_texts =
      (if (determinePagesToProcess (some tp) totalPages opts.include_full_text).1.isEmpty
       then none
       else some (extractPageTexts env
         (determinePagesToProcess (some tp) totalPages opts.include_full_text).1)) := by
  simp only [assembleOutput]
  repeat' split
  all_goals simp_all [extractMetadataAndPageCount_page_texts]

/-- C9: requested pages are split into the valid subset (processed) and
the out-of-range subset; a nonempty out-of-range subset produces exactly
the warning string "Requested page numbers X, Y exceed total pages
(N)."; and a source with such pages still succeeds (success stays true),
carrying the warning in its data and processing only the valid subset. -/
theorem c9_out_of_range_pages_warning (tp : List Int) (tot : Int) (ift : Bool) :
    (determinePagesToProcess (some tp) tot ift =
      (tp.filter (fun p => decide (p ≤ tot)), tp.filter (fun p => decide (tot < p))))
  ∧ ((tp.filter (fun p => decide (tot < p))).isEmpty = false →
      buildWarnings (tp.filter (fun p => decide (tot < p))) tot =
        ["Requested page numbers " ++
          String.intercalate ", " ((tp.filter (fun p => decide (tot < p))).map toString) ++
          " exceed total pages (" ++ toString tot ++ ")."])
  ∧ (∀ (src : PdfSource) (env : SourceEnv) (opts : ReadPdfOptions) (l : List Int),
      src.pages = some (.arr l) →
      (∀ p ∈ l, 0 < p) →
      env.loadResult = .ok tot →
      l ≠ [] →
      (processSingleSource src env opts).success = true ∧
      ∃ d, (processSingleSource src env opts).data = some d ∧
        (let tp2 := stableSort intAsc (dedupKeepFirst l)
         let invalid := tp2.filter (fun p => decide (tot < p))
         let valid := tp2.filter (fun p => decide (p ≤ tot))
         d.warnings = (if invalid.isEmpty then none else some (buildWarnings invalid tot)) ∧
         d.page_texts =
           (if valid.isEmpty then none else some (extractPageTexts env valid)))) := by
  refine ⟨rfl, ?_, ?_⟩
  · intro h
    unfold buildWarnings
    rw [if_neg (by simp [h])]
  · intro src env opts l hp hpos hload hne
    have hany : l.any (fun p => decide (p ≤ 0)) = false := by
      rw [List.any_eq_false]
      intro x hx
      simpa using Int.not_le.mpr (hpos x hx)
    have hlenpos : (stableSort intAsc (dedupKeepFirst l)).length ≠ 0 := by
      rw [length_stableSort]
      rcases l with _ | ⟨x, xs⟩
      · exact absurd rfl hne
      · simp [dedupKeepFirst]
    have hnonempty : (stableSort intAsc (dedupKeepFirst l)).isEmpty = false := by
      rcases hsort : stableSort intAsc (dedupKeepFirst l) with _ | ⟨a, as⟩
      · exact absurd (by rw [hsort]; rfl) hlenpos
      · rfl
    have hval : getTargetPages src.pages (src.path.getD (src.url.getD "unknown source")) =
        .ok (some (stableSort intAsc (dedupKeepFirst l))) := by
      rw [hp]
      unfold getTargetPages
      simp [hany, hnonempty]
    have hres : processSingleSource src env opts =
        { source := src.path.getD (src.url.getD "unknown source"), success := true,
          data := some (assembleOutput env opts
            (some (stableSort intAsc (dedupKeepFirst l))) tot),
          error := none } := by
      simp [processSingleSource, hval, hload]
    rw [hres]
    refine ⟨rfl, _, rfl, ?_, ?_⟩
    · rw [assembleOutput_warnings, buildWarnings_isEmpty]
      rfl
    · rw [assembleOutput_page_texts]
      rfl

/-- C9 witness: requesting pages 1, 15 and 20 of a 10-page document
succeeds with the exact warning and processes only page 1. -/
theorem c9_witness :
    (processSingleSource c9Src c9Env {}).success = true ∧
    ∃ d, (processSingleSource c9Src c9Env {}).data = some d ∧
      (d.warnings = some ["Requested page numbers 15, 20 exceed total pages (10)."] ∧
       d.page_texts = some (extractPageTexts c9Env [1])) := by
  have h := (c9_out_of_range_pages_warning [1, 15, 20] 10 false).2.2
    c9Src c9Env {} [1, 15, 20] rfl (by decide) rfl (by decide)
  refine ⟨h.1, ?_⟩
  obtain ⟨d, hd, hw, hpt⟩ := h.2
  refine ⟨d, hd, ?_, ?_⟩
  · rw [hw]
    decide
  · rw [hpt]
    decide

/-! Lemmas about the content assembly. -/

theorem stripImages_setImagePayloads (f : String → String) (r : PdfSourceResult) :
    stripImages (setImagePayloads f r) = stripImages r := by
  rcases r with ⟨src, succ, data, err⟩
  rcases data with _ | d
  · rfl
  · rcases d with ⟨np, info, meta, warn, pt, ft, imgs, ii⟩
    rcases imgs with _ | imgs
    · rfl
    · simp [stripImages, setImagePayloads, toImageInfo, List.map_map, Function.comp]

theorem mem_pageTextsImageParts (d : PdfResultData) (p : ContentPart)
    (h : p ∈ pageTextsImageParts d) : ∃ dd mm, p = .image dd mm := by
  unfold pageTextsImageParts at h
  rcases hpt : d.page_texts with _ | pts
  · rw [hpt] at h
    simp at h
  · rw [hpt] at h
    rcases List.mem_flatMap.mp h with ⟨pt, _, hp⟩
    rcases himg : d.images with _ | imgs
    · rw [himg] at hp
      simp at hp
    · rw [himg] at hp
      rcases List.mem_map.mp hp with ⟨img, _, rfl⟩
      exact ⟨img.data, _, rfl⟩

theorem mem_fullTextImageParts (d : PdfResultData) (p : ContentPart)
    (h : p ∈ fullTextImageParts d) : ∃ dd mm, p = .image dd mm := by
  unfold fullTextImageParts at h
  split at h
  · split at h
    · simp at h
    · split at h
      · rcases List.mem_flatMap.mp h with ⟨pn, _, hp⟩
        rcases List.mem_map.mp hp with ⟨img, _, rfl⟩
        exact ⟨img.data, _, rfl⟩
      · simp at h
  · simp at h

theorem mem_sourceImageParts (r : PdfSourceResult) (p : ContentPart)
    (h : p ∈ sourceImageParts r) : ∃ dd mm, p = .image dd mm := by
  unfold sourceImageParts at h
  by_cases hs : r.success
  · rw [if_pos hs] at h
    rcases hd : r.data with _ | d
    · rw [hd] at h
      simp at h
    · rw [hd] at h
      rcases List.mem_append.mp h with h1 | h1
      · exact mem_pageTextsImageParts d p h1
      · exact mem_fullTextImageParts d p h1
  · rw [if_neg hs] at h
    simp at h

/-- C3 counterexample: with one succeeding source whose extracted page 1
carries the text "hello" and one image, and with images requested, the
parts after the JSON summary are only the image part - no text content
part carries the extracted text, so the remaining parts are not the
claimed ordered text/image stream (and carry no Y information at all). -/
theorem c3_counterexample :
    (buildContent c3Results true).drop 1 = [ContentPart.image "AAAA" "image/jpeg"] ∧
    ContentPart.text "hello" ∉ (buildContent c3Results true).drop 1 ∧
    (c3Results.map fun r => r.data.bind fun d => d.page_texts) =
      [some [{ page := 1, text := "hello" }]] :=
  ⟨by decide, by decide, by decide⟩

/-- C3 amended: the first content part is always the single JSON results
summary, whose per-source data replaces image payloads by metadata-only
image_info records (the summary does not depend on the image bytes at
all); when images were requested, the remaining parts are exactly the
inline image parts of the successful results, per source in request
order (per page in page_texts order or ascending page order, by
encounter index within a page), and never text parts; without images the
summary is the only part. -/
theorem c3_first_part_summary_then_image_parts :
    (∀ (results : List PdfSourceResult) (inc : Bool),
      (buildContent results inc).head? = some (summaryPart results))
  ∧ (∀ results : List PdfSourceResult, (buildContent results false).drop 1 = [])
  ∧ (∀ results : List PdfSourceResult,
      (buildContent results true).drop 1 = results.flatMap sourceImageParts)
  ∧ (∀ (results : List PdfSourceResult) (inc : Bool) (p : ContentPart),
      p ∈ (buildContent results inc).drop 1 → ∃ dd mm, p = .image dd mm)
  ∧ (∀ (results : List PdfSourceResult) (f : String → String),
      summaryPart (results.map (setImagePayloads f)) = summaryPart results) := by
  refine ⟨fun results inc => rfl, fun results => rfl, fun results => rfl, ?_, ?_⟩
  · intro results inc p h
    cases inc with
    | false => simp [buildContent] at h
    | true =>
      have h2 : p ∈ results.flatMap sourceImageParts := by
        simpa [buildContent] using h
      rcases List.mem_flatMap.mp h2 with ⟨r, _, hp⟩
      exact mem_sourceImageParts r p hp
  · intro results f
    unfold summaryPart
    have hmap : (results.map (setImagePayloads f)).map stripImages =
        results.map stripImages := by
      rw [List.map_map]
      exact List.map_congr_left (fun r _ => stripImages_setImagePayloads f r)
    rw [hmap]

/-- C3 witness: the single remaining part of the counterexample batch is
an image part. -/
theorem c3_witness :
    ∃ dd mm, ContentPart.image "AAAA" "image/jpeg" = ContentPart.image dd mm :=
  c3_first_part_summary_then_image_parts.2.2.2.1 c3Results true
    (ContentPart.image "AAAA" "image/jpeg") (by decide)
